import Mathlib

/-!
Verification of the serial command/response protocol engine and port-discovery
logic of the novatel_oem7_driver standalone tools (`gps_init.py`,
`gps_run.py`, `usb_gps_monitor.py`), via a shallow embedding in Lean 4.

Bytes are modelled as `Nat` (values below 256), byte strings as `List Nat`,
Python `str` values as Lean `String`/`List Char`.  Wall-clock time, where it
matters, is modelled as `Nat` ticks with an explicit poll-slice granularity.
I/O streams are modelled as the finite list of chunks that the `select`-based
polling loop observes before its deadline elapses.
-/

namespace Novatel

/-! ## Python string / bytes primitives used by the tools -/

/-- Characters Python's `str.strip()` removes, restricted to the ASCII range
(the command files shipped with the driver are ASCII). -/
def pyIsSpace (c : Char) : Bool :=
  c = ' ' || c = '\t' || c = '\n' || c = '\r' || c = '\x0b' || c = '\x0c'

/-- Python `str.strip()`: drop leading and trailing whitespace. -/
def pyStrip (l : List Char) : List Char :=
  ((l.dropWhile pyIsSpace).reverse.dropWhile pyIsSpace).reverse

/-- Line-break characters recognized by Python `str.splitlines()`
(other than the two-character sequence CR LF, handled separately). -/
def pyIsLineBreak (c : Char) : Bool :=
  c = '\n' || c = '\r' || c = '\x0b' || c = '\x0c' ||
  c = '\x1c' || c = '\x1d' || c = '\x1e' || c = '\x85' ||
  c.toNat = 0x2028 || c.toNat = 0x2029

/-- Python `str.splitlines()` (keepends = False), on character lists. -/
def strSplitlinesAux : List Char → List Char → List (List Char)
  | [], cur => if cur.isEmpty then [] else [cur]
  | '\r' :: '\n' :: rest, cur => cur :: strSplitlinesAux rest []
  | c :: rest, cur =>
      if pyIsLineBreak c then cur :: strSplitlinesAux rest []
      else strSplitlinesAux rest (cur ++ [c])

def strSplitlines (s : String) : List (List Char) :=
  strSplitlinesAux s.data []

/-- Python `bytes.splitlines()` (keepends = False): split on `\n` (10),
`\r` (13) or the pair `\r\n`; a trailing unterminated fragment is kept,
an empty trailing fragment is not. -/
def bytesSplitlinesAux : List Nat → List Nat → List (List Nat)
  | [], cur => if cur.isEmpty then [] else [cur]
  | 13 :: 10 :: rest, cur => cur :: bytesSplitlinesAux rest []
  | 13 :: rest, cur => cur :: bytesSplitlinesAux rest []
  | 10 :: rest, cur => cur :: bytesSplitlinesAux rest []
  | b :: rest, cur => bytesSplitlinesAux rest (cur ++ [b])

def bytesSplitlines (s : List Nat) : List (List Nat) :=
  bytesSplitlinesAux s []

/-- Python `str.encode("ascii", errors="ignore")`: ASCII code points become
single bytes, non-ASCII code points are dropped. -/
def encodeAsciiIgnore (s : String) : List Nat :=
  (s.data.filter (fun c => c.toNat < 128)).map Char.toNat

/-- Python `str.encode("ascii")` with strict error handling: `none` models a
raised `UnicodeEncodeError` when any code point is outside ASCII. -/
def encodeAsciiStrict (s : String) : Option (List Nat) :=
  if s.data.all (fun c => c.toNat < 128) then some (s.data.map Char.toNat)
  else none

/-- Python `bytes.decode("ascii", errors="replace")`: bytes below 128 decode
to themselves, all others to U+FFFD. -/
def decodeAsciiReplace (l : List Nat) : String :=
  ⟨l.map (fun b => if b < 128 then Char.ofNat b else '�')⟩

/-! ## gps_init.py: command file parsing and sequence loading -/

/-- Does the (stripped) line start with `-`, as Python `line.startswith("-")`. -/
def startsWithDash : List Char → Bool
  | '-' :: _ => true
  | _ => false

/-- One iteration of the loop body of `parse_command_file` (gps_init.py
lines 44-66), acting on one raw line of the file; `none` means the line
contributes no command. -/
def parseCommandLine (rawLine : List Char) : Option String :=
  let line := pyStrip rawLine
  if ¬ startsWithDash line then none
  else
    let line := if line.contains '#' then pyStrip (line.takeWhile (· ≠ '#')) else line
    if ¬ startsWithDash line then none
    else
      let fq := line.findIdx? (· = '"')
      let lq := (line.reverse.findIdx? (· = '"')).map (fun j => line.length - 1 - j)
      let command :=
        match fq, lq with
        | some i, some j =>
            if i < j then pyStrip ((line.drop (i + 1)).take (j - (i + 1)))
            else pyStrip (line.drop 1)
        | _, _ => pyStrip (line.drop 1)
      if command.isEmpty then none else some ⟨command⟩

/-- `parse_command_file` (gps_init.py): a missing file (`none`) yields no
commands; otherwise every line contributing a command, in order. -/
def parse_command_file : Option String → List String
  | none => []
  | some content => (strSplitlines content).filterMap parseCommandLine

/-- One step of the deduplication loop of `load_command_sequence`
(gps_init.py lines 80-83): append `cmd` unless it equals the last element. -/
def dedupStep (deduped : List String) (cmd : String) : List String :=
  if deduped = [] ∨ deduped.getLast? ≠ some cmd then deduped ++ [cmd] else deduped

/-- The deduplication pass of `load_command_sequence`. -/
def dedupConsecutive (sequence : List String) : List String :=
  sequence.foldl dedupStep []

/-- `load_command_sequence` (gps_init.py lines 71-84).  A command file is
modelled by its content, `none` standing for a file that does not exist. -/
def load_command_sequence (paths : List (Option String)) (extra : List String) :
    List String :=
  dedupConsecutive ((paths.map parse_command_file).flatten ++ extra)

/-! ## Baud-rate tables (gps_init.py lines 88-95, usb_gps_monitor.py lines 24-31) -/

/-- `BAUD_MAP` of usb_gps_monitor.py (identical to the local `baud_map` of
`configure_port` in gps_init.py), in declaration order, with the Linux
`termios` speed constants `B115200` … `B4800`. -/
def BAUD_MAP : List (Nat × Nat) :=
  [(115200, 0x1002), (57600, 0x1001), (38400, 0o17),
   (19200, 0o16), (9600, 0o15), (4800, 0o14)]

/-- The keys of `BAUD_MAP` in declaration order — both the supported-baud set
and the iteration order of `for baud in BAUD_MAP.keys()` (Python dicts
iterate in insertion order). -/
def BAUD_KEYS : List Nat := BAUD_MAP.map Prod.fst

/-! ## Opening and configuring a serial link -/

/-- Per-descriptor syscall events.  `attempt` records that `os.open` was
called, `opened` that it succeeded, `closed` an `os.close` on the resulting
descriptor. -/
inductive FdEvent
  | attempt
  | opened
  | closed
  deriving DecidableEq, Repr

/-- Errors `configure_port` (gps_init.py lines 87-121) can raise. -/
inductive ConfigError
  | unsupportedBaud
  | termiosError
  deriving DecidableEq, Repr

/-- `configure_port` (gps_init.py lines 87-121): raise `ValueError` when the
baud rate has no entry in the baud map, otherwise perform the termios
configuration, whose success is modelled by the environment flag
`termiosOk`. -/
def configure_port (baud : Nat) (termiosOk : Bool) : Except ConfigError Unit :=
  match BAUD_MAP.lookup baud with
  | none => .error .unsupportedBaud
  | some _ => if termiosOk then .ok () else .error .termiosError

/-- `open_serial` of gps_init.py (lines 124-131): open, then configure, and
close the just-opened descriptor before propagating a configuration
failure.  `openOk` models whether `os.open` succeeds, `configOk` whether
`configure_port` does.  Returns the descriptor (as `Option`) and the fd
events performed. -/
def gpsInitOpenSerial (openOk configOk : Bool) : Option Unit × List FdEvent :=
  if openOk then
    if configOk then (some (), [.attempt, .opened])
    else (none, [.attempt, .opened, .closed])
  else (none, [.attempt])

/-- `open_serial` of usb_gps_monitor.py (lines 64-82): return `None` without
touching the device when the baud rate is not in `BAUD_MAP`; otherwise open
(may fail), configure (closing the descriptor and returning `None` on
failure). -/
def monitor_open_serial (baud : Nat) (openOk configOk : Bool) :
    Option Unit × List FdEvent :=
  match BAUD_MAP.lookup baud with
  | none => (none, [])
  | some _ =>
      if openOk then
        if configOk then (some (), [.attempt, .opened])
        else (none, [.attempt, .opened, .closed])
      else (none, [.attempt])

/-! ## Command payload encoding (C8) -/

/-- The bytes `send_commands` (gps_init.py line 159) writes for one command:
`(cmd + "\r\n").encode("ascii", errors="ignore")`. -/
def gpsInitPayload (cmd : String) : List Nat :=
  encodeAsciiIgnore (cmd ++ "\r\n")

/-- The bytes `send_command` (usb_gps_monitor.py line 123) writes:
`(cmd + "\r\n").encode("ascii")` — strict encoding, `none` modelling the
`UnicodeEncodeError` raised when the command has a non-ASCII character. -/
def monitorPayload (cmd : String) : Option (List Nat) :=
  encodeAsciiStrict (cmd ++ "\r\n")

/-! ## Reply collection loops (C3, C4) -/

/-- The reply-collection loop of `read_response` (gps_init.py lines 138-149)
over the finite list of chunks the polling loop observes before its deadline
elapses.  An empty chunk models a tick where `os.read` returned no bytes
(skipped).  The loop stops after the first chunk containing `\n` or `\r`. -/
def readResponseLoop : List (List Nat) → List Nat → List Nat
  | [], buffer => buffer
  | c :: cs, buffer =>
      if c = [] then readResponseLoop cs buffer
      else if 10 ∈ c ∨ 13 ∈ c then buffer ++ c
      else readResponseLoop cs (buffer ++ c)

/-- `read_response` (gps_init.py lines 134-154): collect bytes, then decode
with substitution and strip. -/
def read_response (chunks : List (List Nat)) : String :=
  let buffer := readResponseLoop chunks []
  if buffer.isEmpty then "" else ⟨pyStrip (decodeAsciiReplace buffer).data⟩

/-- The reply-wait loop inside `send_command` (usb_gps_monitor.py lines
132-151): accumulate chunks, stopping when the accumulated reply contains
`\n` (and only `\n`). -/
def monitorReplyLoop : List (List Nat) → List Nat → List Nat
  | [], reply => reply
  | c :: cs, reply =>
      if c = [] then monitorReplyLoop cs reply
      else
        let r := reply ++ c
        if 10 ∈ r then r
        else monitorReplyLoop cs r

/-- The collector described by the specification: accumulate chunks until one
of the terminator bytes `terms` appears in the accumulated buffer, else until
the stream (deadline) ends; return whatever was captured. -/
def collectUntilTerm (terms : List Nat) : List (List Nat) → List Nat → List Nat
  | [], buf => buf
  | c :: cs, buf =>
      let b := buf ++ c
      if ∃ t ∈ terms, t ∈ b then b
      else collectUntilTerm terms cs b

/-- Timed model of `read_response` (gps_init.py lines 134-154).  Time is
counted in abstract ticks; `slice` is the 0.1 s `select` timeout expressed
in ticks.  Iteration `i` consumes `dur i` ticks (the select wait plus the
read) and observes the bytes `chunks i`; `dur i` ranges over `1 … slice`
(a poll that times out consumes the whole slice, one with data ready
returns sooner but still takes at least one tick).  `fuel` bounds the
recursion; `none` means the fuel ran out before the loop returned, and the
result carries the time at which the function returns together with the
collected buffer. -/
def readResponseTimed (deadline : Nat) (dur : Nat → Nat) (chunks : Nat → List Nat) :
    Nat → Nat → Nat → List Nat → Option (Nat × List Nat)
  | 0, _, _, _ => none
  | fuel + 1, i, t, buffer =>
      if t < deadline then
        let t2 := t + dur i
        let c := chunks i
        if c = [] then readResponseTimed deadline dur chunks fuel (i + 1) t2 buffer
        else if 10 ∈ c ∨ 13 ∈ c then some (t2, buffer ++ c)
        else readResponseTimed deadline dur chunks fuel (i + 1) t2 (buffer ++ c)
      else some (t, buffer)

/-! ## Sniffing for NMEA traffic (usb_gps_monitor.py lines 85-109) -/

/-- `NMEA_PREFIXES` (usb_gps_monitor.py line 34): the raw byte prefixes
`$GP`, `$GN`, `$PQ`, `$PM`, `$PN`. -/
def NMEA_PREFIXES : List (List Nat) :=
  [[36, 71, 80], [36, 71, 78], [36, 80, 81], [36, 80, 77], [36, 80, 78]]

/-- The match test of `sniff_for_gps` (usb_gps_monitor.py lines 104-107):
some line of the captured buffer — the trailing unterminated fragment
included, since `bytes.splitlines` yields it — starts with a recognized
prefix. -/
def hasNmeaLine (captured : List Nat) : Bool :=
  (bytesSplitlines captured).any fun line =>
    NMEA_PREFIXES.any fun p => p.isPrefixOf line

/-- `sniff_for_gps` (usb_gps_monitor.py lines 85-109) over the chunks the
polling loop observes before its deadline: accumulate each non-empty chunk,
returning a match as soon as the buffer has a recognized line, else report
no match with everything captured. -/
def sniff_for_gps : List (List Nat) → List Nat → Bool × List Nat
  | [], captured => (false, captured)
  | c :: cs, captured =>
      if c = [] then sniff_for_gps cs captured
      else
        let captured2 := captured ++ c
        if hasNmeaLine captured2 then (true, captured2)
        else sniff_for_gps cs captured2

/-- ASCII bytes of a string (for concrete scenarios). -/
def asciiBytes (s : String) : List Nat := s.data.map Char.toNat

/-! ## Streaming (gps_run.py lines 39-66) -/

/-- Python `str.startswith`, on the underlying character lists. -/
def pyStartsWith (s pre : String) : Bool :=
  pre.data.isPrefixOf s.data

/-- The per-line processing of `stream_output` (gps_run.py lines 54-61):
skip empty lines, decode as ASCII with substitution, and with `nmea_only`
drop lines whose text does not start with `$` or `<`. -/
def streamLineF (nmeaOnly : Bool) (rawLine : List Nat) : Option String :=
  if rawLine = [] then none
  else
    let text := decodeAsciiReplace rawLine
    if nmeaOnly ∧ ¬ (pyStartsWith text "$" ∨ pyStartsWith text "<") then none
    else some text

/-- Processing of one received chunk by `stream_output` (gps_run.py lines
54-61): split on line boundaries, then apply the per-line processing; lines
are emitted in order. -/
def streamChunkLines (nmeaOnly : Bool) (data : List Nat) : List String :=
  (bytesSplitlines data).filterMap (streamLineF nmeaOnly)

/-- `stream_output` (gps_run.py lines 39-66): emit the lines of each chunk
observed before the loop is cancelled, then close the descriptor in the
`finally` block (the close happens on every exit, cancellation included).
The result is the emitted lines and the fd events on the streamed
descriptor. -/
def stream_output (nmeaOnly : Bool) (chunks : List (List Nat)) :
    List String × List FdEvent :=
  ((chunks.map (streamChunkLines nmeaOnly)).flatten, [FdEvent.closed])

/-! ## The two-phase probe of detect_gps (usb_gps_monitor.py lines 200-206) -/

/-- `INIT_COMMANDS` (usb_gps_monitor.py lines 35-41). -/
def INIT_COMMANDS : List String :=
  ["UNLOGALL THISPORT", "LOG GPGGA ONTIME 1", "LOG GPGSA ONTIME 1",
   "LOG GPGSV ONTIME 1", "LOG GPRMC ONTIME 1"]

/-- The probe `detect_gps` runs on one opened candidate (usb_gps_monitor.py
lines 200-206): a passive sniff; then, only if it did not match, one
`initialize_receiver` call — which writes each command of `INIT_COMMANDS`
once, in order — followed by a second sniff.  `passiveChunks` are the bytes
the device delivers during the passive window, `activeChunks` those it
delivers after initialization.  Returns the final matched flag, the sample
bytes, and the list of command strings written to the link. -/
def probeCandidate (passiveChunks activeChunks : List (List Nat)) :
    Bool × List Nat × List String :=
  let r1 := sniff_for_gps passiveChunks []
  if ¬ r1.1 then
    let r2 := sniff_for_gps activeChunks []
    (r2.1, r2.2, INIT_COMMANDS)
  else (r1.1, r1.2, [])

/-! ## Port discovery (usb_gps_monitor.py lines 44-47 and 193-223) -/

/-- `TTY_PATTERNS` (usb_gps_monitor.py line 33), in declared order. -/
def TTY_PATTERNS : List String := ["/dev/ttyUSB*", "/dev/ttyACM*"]

/-- Python `sorted` on the glob results: lexicographic (stable) sort. -/
def sortedPaths (l : List String) : List String := l.insertionSort (· ≤ ·)

/-- The environment one discovery run observes: which device paths each glob
pattern matches, and how each (path, baud) candidate behaves — whether
`os.open` succeeds, whether `configure_port` succeeds, and whether the
two-phase probe reports a match. -/
structure DiscoveryEnv where
  globPaths : String → List String
  osOpenOk : String → Nat → Bool
  configOk : String → Nat → Bool
  probeMatched : String → Nat → Bool

/-- `iter_candidate_ports` (usb_gps_monitor.py lines 44-47): for each pattern
in declared order, the matching paths sorted lexically. -/
def iter_candidate_ports (env : DiscoveryEnv) : List String :=
  (TTY_PATTERNS.map fun pat => sortedPaths (env.globPaths pat)).flatten

/-- The candidate sequence `detect_gps` iterates: each candidate path paired
with each baud rate, bauds in `BAUD_MAP` declaration order. -/
def candidateSeq (env : DiscoveryEnv) : List (String × Nat) :=
  ((iter_candidate_ports env).map fun p => BAUD_KEYS.map fun b => (p, b)).flatten

/-- `open_serial` as invoked by `detect_gps` on candidate `c`. -/
def openAttempt (env : DiscoveryEnv) (c : String × Nat) :
    Option Unit × List FdEvent :=
  monitor_open_serial c.2 (env.osOpenOk c.1 c.2) (env.configOk c.1 c.2)

/-- The condition under which the loop body of `detect_gps` returns candidate
`c`: `open_serial` produced a descriptor and the probe matched. -/
def probeHit (env : DiscoveryEnv) (c : String × Nat) : Bool :=
  (openAttempt env c).1.isSome && env.probeMatched c.1 c.2

/-- The candidate loop of `detect_gps` (usb_gps_monitor.py lines 193-223):
try each candidate in order; when `open_serial` yields a descriptor, run the
probe — on a match return the candidate keeping its descriptor open, else
close the descriptor and continue.  Descriptors are numbered by candidate
position starting at `i`.  Returns the detected candidate with its
descriptor number, the candidates actually probed, and the per-descriptor
events. -/
def detectLoop (env : DiscoveryEnv) :
    Nat → List (String × Nat) →
      Option ((String × Nat) × Nat) × List (String × Nat) × List (Nat × FdEvent)
  | _, [] => (none, [], [])
  | i, c :: cs =>
      let a := openAttempt env c
      let tagged := a.2.map fun e => (i, e)
      match a.1 with
      | none =>
          let r := detectLoop env (i + 1) cs
          (r.1, r.2.1, tagged ++ r.2.2)
      | some _ =>
          if env.probeMatched c.1 c.2 then (some (c, i), [c], tagged)
          else
            let r := detectLoop env (i + 1) cs
            (r.1, c :: r.2.1, tagged ++ [(i, FdEvent.closed)] ++ r.2.2)

/-- `detect_gps` (usb_gps_monitor.py lines 193-223): the loop over the full
candidate sequence; `none` models the `return None` on exhaustion. -/
def detect_gps (env : DiscoveryEnv) : Option ((String × Nat) × Nat) :=
  (detectLoop env 0 (candidateSeq env)).1

/-- Indices of the descriptors with an event of the given kind, in order. -/
def evIdxs (kind : FdEvent) (t : List (Nat × FdEvent)) : List Nat :=
  (t.filter fun e => e.2 == kind).map Prod.fst

/-- Is descriptor `n` still owned by the loop (not handed upward) given the
detection result `r`? -/
def keptOpen (r : Option ((String × Nat) × Nat)) (n : Nat) : Bool :=
  match r with
  | some (_, m) => n != m
  | none => true

/-- The descriptor handed upward by the detection result, as a list. -/
def matchedFd (r : Option ((String × Nat) × Nat)) : List Nat :=
  match r with
  | some (_, m) => [m]
  | none => []

theorem dedupStep_snoc (ys : List String) (a b : String) :
    dedupStep (ys ++ [a]) b = if a ≠ b then ys ++ [a, b] else ys ++ [a] := by
  unfold dedupStep
  rcases eq_or_ne a b with h | h <;> simp [h]

theorem foldl_dedupStep_destutter (l : List String) (ys : List String) (a : String) :
    List.foldl dedupStep (ys ++ [a]) l = ys ++ List.destutter' (· ≠ ·) a l := by
  induction l generalizing ys a with
  | nil => simp
  | cons b l ih =>
      rcases eq_or_ne a b with h | h
      · subst h
        simp [List.foldl_cons, dedupStep_snoc, ih]
      · have : ys ++ [a, b] = (ys ++ [a]) ++ [b] := by simp
        simp only [List.foldl_cons, dedupStep_snoc, if_pos h, this, ih,
          List.destutter'_cons, if_pos h]
        simp

theorem dedupConsecutive_eq_destutter (l : List String) :
    dedupConsecutive l = List.destutter (· ≠ ·) l := by
  cases l with
  | nil => rfl
  | cons a l =>
      have h := foldl_dedupStep_destutter l [] a
      simpa [dedupConsecutive] using h

theorem lookup_keys_none {β : Type} (a : Nat) (l : List (Nat × β)) :
    l.lookup a = none ↔ a ∉ l.map Prod.fst := by
  induction l with
  | nil => simp
  | cons p l ih =>
      obtain ⟨k, v⟩ := p
      rcases eq_or_ne a k with h | h
      · subst h
        simp [List.lookup]
      · have hbeq : (a == k) = false := beq_eq_false_iff_ne.mpr h
        simp only [List.lookup, hbeq]
        simp [ih, h]

theorem baud_lookup_none_iff (baud : Nat) :
    BAUD_MAP.lookup baud = none ↔ baud ∉ BAUD_KEYS :=
  lookup_keys_none baud BAUD_MAP

theorem readResponseLoop_eq_collect (cs : List (List Nat)) (buf : List Nat)
    (h10 : 10 ∉ buf) (h13 : 13 ∉ buf) :
    readResponseLoop cs buf = collectUntilTerm [10, 13] cs buf := by
  induction cs generalizing buf with
  | nil => rfl
  | cons c cs ih =>
      rcases eq_or_ne c [] with hc | hc
      · subst hc
        simp [readResponseLoop, collectUntilTerm, h10, h13, ih buf h10 h13]
      · by_cases ht : 10 ∈ c ∨ 13 ∈ c
        · rcases ht with ht | ht <;>
            simp [readResponseLoop, collectUntilTerm, hc, ht]
        · push_neg at ht
          have h10' : 10 ∉ buf ++ c := by simp [h10, ht.1]
          have h13' : 13 ∉ buf ++ c := by simp [h13, ht.2]
          simp [readResponseLoop, collectUntilTerm, hc, ht.1, ht.2,
            h10, h13, ih (buf ++ c) h10' h13']

theorem monitorReplyLoop_eq_collect (cs : List (List Nat)) (buf : List Nat)
    (h10 : 10 ∉ buf) :
    monitorReplyLoop cs buf = collectUntilTerm [10] cs buf := by
  induction cs generalizing buf with
  | nil => rfl
  | cons c cs ih =>
      rcases eq_or_ne c [] with hc | hc
      · subst hc
        simp [monitorReplyLoop, collectUntilTerm, h10, ih buf h10]
      · by_cases h : 10 ∈ buf ++ c
        · have h' : 10 ∈ buf ∨ 10 ∈ c := by simpa using h
          rcases h' with h' | h'
          · exact absurd h' h10
          · simp [monitorReplyLoop, collectUntilTerm, hc, h, h']
        · have h' : 10 ∉ buf ∧ 10 ∉ c := by simpa [not_or] using h
          simp [monitorReplyLoop, collectUntilTerm, hc, h10, h'.2, ih (buf ++ c) h]

theorem readResponseTimed_bounded (deadline slice : Nat) (dur : Nat → Nat)
    (chunks : Nat → List Nat) (hlo : ∀ i, 1 ≤ dur i) (hhi : ∀ i, dur i ≤ slice) :
    ∀ fuel i t buffer, 1 ≤ fuel → (t < deadline → deadline + 1 ≤ t + fuel) →
      t ≤ deadline + slice →
      ∃ r, readResponseTimed deadline dur chunks fuel i t buffer = some r ∧
        r.1 ≤ deadline + slice := by
  intro fuel
  induction fuel with
  | zero => intro i t buffer hf _ _; omega
  | succ fuel ih =>
      intro i t buffer _ hfuel ht
      by_cases hlt : t < deadline
      · have h1 : 1 ≤ fuel := by have := hfuel hlt; omega
        have ht2 : t + dur i ≤ deadline + slice := by
          have := hhi i; omega
        have hfuel2 : t + dur i < deadline → deadline + 1 ≤ t + dur i + fuel := by
          intro _
          have := hfuel hlt
          have := hlo i
          omega
        by_cases hc : chunks i = []
        · obtain ⟨r, hr, hb⟩ := ih (i + 1) (t + dur i) buffer h1 hfuel2 ht2
          exact ⟨r, by simp [readResponseTimed, hlt, hc, hr], hb⟩
        · by_cases hterm : 10 ∈ chunks i ∨ 13 ∈ chunks i
          · refine ⟨(t + dur i, buffer ++ chunks i), ?_, ht2⟩
            simp [readResponseTimed, hlt, hc, hterm]
          · obtain ⟨r, hr, hb⟩ := ih (i + 1) (t + dur i) (buffer ++ chunks i) h1 hfuel2 ht2
            exact ⟨r, by simp [readResponseTimed, hlt, hc, hterm, hr], hb⟩
      · exact ⟨(t, buffer), by simp [readResponseTimed, hlt], by omega⟩

theorem evIdxs_append (kind : FdEvent) (a b : List (Nat × FdEvent)) :
    evIdxs kind (a ++ b) = evIdxs kind a ++ evIdxs kind b := by
  simp [evIdxs]

theorem evIdxs_le {k : FdEvent} {t : List (Nat × FdEvent)} {i : Nat}
    (h : ∀ e ∈ t, i ≤ e.1) : ∀ n ∈ evIdxs k t, i ≤ n := by
  intro n hn
  simp only [evIdxs, List.mem_map, List.mem_filter] at hn
  obtain ⟨e, ⟨he, _⟩, rfl⟩ := hn
  exact h e he

theorem openAttempt_cases (env : DiscoveryEnv) (c : String × Nat) :
    openAttempt env c = (none, [])
    ∨ openAttempt env c = (none, [.attempt])
    ∨ openAttempt env c = (none, [.attempt, .opened, .closed])
    ∨ openAttempt env c = (some (), [.attempt, .opened]) := by
  unfold openAttempt monitor_open_serial
  rcases BAUD_MAP.lookup c.2 with _ | v
  · simp
  · cases env.osOpenOk c.1 c.2 <;> cases env.configOk c.1 c.2 <;> simp

theorem detectLoop_find (env : DiscoveryEnv) :
    ∀ (cs : List (String × Nat)) (i : Nat),
      ((detectLoop env i cs).1.map Prod.fst = cs.find? (probeHit env))
      ∧ ((detectLoop env i cs).2.1
          = (cs.takeWhile fun c => !(probeHit env c)).filter
              (fun c => (openAttempt env c).1.isSome)
            ++ (cs.find? (probeHit env)).toList) := by
  intro cs
  induction cs with
  | nil => intro i; simp [detectLoop]
  | cons c cs ih =>
      intro i
      obtain ⟨ih1, ih2⟩ := ih (i + 1)
      rcases ho : (openAttempt env c).1 with _ | u
      · have hhit : probeHit env c = false := by simp [probeHit, ho]
        simp [detectLoop, ho, List.find?_cons, hhit, ih1, ih2,
          List.takeWhile_cons, List.filter_cons]
      · by_cases hm : env.probeMatched c.1 c.2
        · have hhit : probeHit env c = true := by simp [probeHit, ho, hm]
          simp [detectLoop, ho, hm, List.find?_cons, hhit, List.takeWhile_cons]
        · have hhit : probeHit env c = false := by simp [probeHit, hm]
          simp [detectLoop, ho, hm, List.find?_cons, hhit, ih1, ih2,
            List.takeWhile_cons, List.filter_cons]

theorem detectLoop_events (env : DiscoveryEnv) :
    ∀ (cs : List (String × Nat)) (i : Nat),
      (∀ e ∈ (detectLoop env i cs).2.2, i ≤ e.1)
      ∧ (∀ p m, (detectLoop env i cs).1 = some (p, m) →
          i ≤ m ∧ m ∈ evIdxs .opened (detectLoop env i cs).2.2)
      ∧ evIdxs .closed (detectLoop env i cs).2.2
          = (evIdxs .opened (detectLoop env i cs).2.2).filter
              (keptOpen (detectLoop env i cs).1)
      ∧ (evIdxs .opened (detectLoop env i cs).2.2).filter
            (fun n => ! keptOpen (detectLoop env i cs).1 n)
          = matchedFd (detectLoop env i cs).1
      ∧ (evIdxs .opened (detectLoop env i cs).2.2).Pairwise (· < ·) := by
  intro cs
  induction cs with
  | nil =>
      intro i
      refine ⟨?_, ?_, ?_, ?_, ?_⟩ <;> simp [detectLoop, evIdxs, matchedFd]
  | cons c cs ih =>
      intro i
      obtain ⟨ih1, ih2, ih3, ih4, ih5⟩ := ih (i + 1)
      have hkept : keptOpen (detectLoop env (i + 1) cs).1 i = true := by
        cases hr : (detectLoop env (i + 1) cs).1 with
        | none => simp [keptOpen]
        | some pm =>
            obtain ⟨p, m⟩ := pm
            have hm := (ih2 p m hr).1
            simp only [keptOpen, ne_eq, bne_iff_ne]
            omega
      have hlt : ∀ n ∈ evIdxs .opened (detectLoop env (i + 1) cs).2.2, i < n :=
        fun n hn => Nat.lt_of_succ_le (evIdxs_le ih1 n hn)
      rcases openAttempt_cases env c with ha | ha | ha | ha
      · refine ⟨?_, ?_, ?_, ?_, ?_⟩
        · intro e he
          simp only [detectLoop, ha, List.map_nil, List.nil_append] at he
          exact Nat.le_of_succ_le (ih1 e he)
        · intro p m h
          simp only [detectLoop, ha, List.map_nil, List.nil_append] at h ⊢
          exact ⟨Nat.le_of_succ_le (ih2 p m h).1, (ih2 p m h).2⟩
        · simpa [detectLoop, ha] using ih3
        · simpa [detectLoop, ha] using ih4
        · simpa [detectLoop, ha] using ih5
      · refine ⟨?_, ?_, ?_, ?_, ?_⟩
        · intro e he
          simp only [detectLoop, ha, List.map_cons, List.map_nil,
            List.cons_append, List.nil_append, List.mem_cons] at he
          rcases he with rfl | he
          · exact le_refl i
          · exact Nat.le_of_succ_le (ih1 e he)
        · intro p m h
          simp only [detectLoop, ha] at h ⊢
          refine ⟨Nat.le_of_succ_le (ih2 p m h).1, ?_⟩
          simpa [evIdxs_append, evIdxs] using (ih2 p m h).2
        · simpa [detectLoop, ha, evIdxs_append, evIdxs] using ih3
        · simpa [detectLoop, ha, evIdxs_append, evIdxs] using ih4
        · simpa [detectLoop, ha, evIdxs_append, evIdxs] using ih5
      · refine ⟨?_, ?_, ?_, ?_, ?_⟩
        · intro e he
          simp only [detectLoop, ha, List.map_cons, List.map_nil,
            List.cons_append, List.nil_append] at he
          rcases List.mem_cons.mp he with rfl | he
          · exact le_refl i
          rcases List.mem_cons.mp he with rfl | he
          · exact le_refl i
          rcases List.mem_cons.mp he with rfl | he
          · exact le_refl i
          exact Nat.le_of_succ_le (ih1 e he)
        · intro p m h
          simp only [detectLoop, ha] at h ⊢
          refine ⟨Nat.le_of_succ_le (ih2 p m h).1, ?_⟩
          simp only [List.map_cons, List.map_nil, List.cons_append, List.nil_append]
          simpa [evIdxs, List.filter_cons] using Or.inr (ih2 p m h).2
        · simp only [detectLoop, ha, List.map_cons, List.map_nil,
            List.cons_append, List.nil_append]
          simp only [evIdxs, List.filter_cons]
          simpa [List.filter_cons, hkept] using ih3
        · simp only [detectLoop, ha, List.map_cons, List.map_nil,
            List.cons_append, List.nil_append]
          simp only [evIdxs, List.filter_cons]
          simpa [List.filter_cons, hkept] using ih4
        · simp only [detectLoop, ha, List.map_cons, List.map_nil,
            List.cons_append, List.nil_append]
          simp only [evIdxs, List.filter_cons]
          simpa [List.pairwise_cons, evIdxs] using
            ⟨fun n hn => hlt n (by simpa [evIdxs] using hn), ih5⟩
      · by_cases hm : env.probeMatched c.1 c.2
        · refine ⟨?_, ?_, ?_, ?_, ?_⟩
          · intro e he
            simp only [detectLoop, ha, hm, if_true, List.map_cons, List.map_nil,
              List.mem_cons] at he
            rcases he with rfl | rfl | he
            · exact le_refl i
            · exact le_refl i
            · simp at he
          · intro p m h
            simp only [detectLoop, ha, hm, if_true, Option.some.injEq,
              Prod.mk.injEq] at h ⊢
            obtain ⟨-, rfl⟩ := h
            exact ⟨le_refl i, by simp [evIdxs, List.filter_cons]⟩
          · simp [detectLoop, ha, hm, evIdxs, List.filter_cons, keptOpen, matchedFd]
          · simp [detectLoop, ha, hm, evIdxs, List.filter_cons, keptOpen, matchedFd]
          · simp [detectLoop, ha, hm, evIdxs, List.filter_cons]
        · refine ⟨?_, ?_, ?_, ?_, ?_⟩
          · intro e he
            simp only [detectLoop, ha, hm, if_false, List.map_cons, List.map_nil,
              List.cons_append, List.nil_append] at he
            rcases List.mem_cons.mp he with rfl | he
            · exact le_refl i
            rcases List.mem_cons.mp he with rfl | he
            · exact le_refl i
            rcases List.mem_cons.mp he with rfl | he
            · exact le_refl i
            exact Nat.le_of_succ_le (ih1 e he)
          · intro p m h
            simp only [detectLoop, ha, hm, if_false] at h ⊢
            refine ⟨Nat.le_of_succ_le (ih2 p m h).1, ?_⟩
            simp only [List.map_cons, List.map_nil, List.cons_append, List.nil_append]
            simpa [evIdxs, List.filter_cons] using Or.inr (ih2 p m h).2
          · simp only [detectLoop, ha, hm, if_false, List.map_cons, List.map_nil,
              List.cons_append, List.nil_append]
            simp only [evIdxs, List.filter_cons]
            simpa [List.filter_cons, hkept] using ih3
          · simp only [detectLoop, ha, hm, if_false, List.map_cons, List.map_nil,
              List.cons_append, List.nil_append]
            simp only [evIdxs, List.filter_cons]
            simpa [List.filter_cons, hkept] using ih4
          · simp only [detectLoop, ha, hm, if_false, List.map_cons, List.map_nil,
              List.cons_append, List.nil_append]
            simp only [evIdxs, List.filter_cons]
            simpa [List.pairwise_cons, evIdxs] using
              ⟨fun n hn => hlt n (by simpa [evIdxs] using hn), ih5⟩

theorem sniff_fst_eq_hasNmeaLine (cs : List (List Nat)) (captured : List Nat)
    (h : hasNmeaLine captured = false) :
    (sniff_for_gps cs captured).1 = hasNmeaLine (sniff_for_gps cs captured).2 := by
  induction cs generalizing captured with
  | nil => simpa [sniff_for_gps] using h.symm
  | cons c cs ih =>
      rcases eq_or_ne c [] with hc | hc
      · subst hc
        simpa [sniff_for_gps] using ih captured h
      · by_cases hn : hasNmeaLine (captured ++ c) = true
        · simp [sniff_for_gps, hc, hn]
        · simpa [sniff_for_gps, hc, hn] using
            ih (captured ++ c) (by simpa using hn)

theorem sniff_false_flatten (cs : List (List Nat)) (captured : List Nat)
    (h : (sniff_for_gps cs captured).1 = false) :
    (sniff_for_gps cs captured).2 = captured ++ cs.flatten := by
  induction cs generalizing captured with
  | nil => simp [sniff_for_gps]
  | cons c cs ih =>
      rcases eq_or_ne c [] with hc | hc
      · subst hc
        simpa [sniff_for_gps] using
          ih captured (by simpa [sniff_for_gps] using h)
      · by_cases hn : hasNmeaLine (captured ++ c) = true
        · simp [sniff_for_gps, hc, hn] at h
        · have h2 := ih (captured ++ c) (by simpa [sniff_for_gps, hc, hn] using h)
          simp [sniff_for_gps, hc, hn, h2]

theorem sniff_capture_take (cs : List (List Nat)) (captured : List Nat) :
    ∃ n, (sniff_for_gps cs captured).2 = captured ++ (cs.take n).flatten := by
  induction cs generalizing captured with
  | nil => exact ⟨0, by simp [sniff_for_gps]⟩
  | cons c cs ih =>
      rcases eq_or_ne c [] with hc | hc
      · subst hc
        obtain ⟨n, hn⟩ := ih captured
        exact ⟨n + 1, by simpa [sniff_for_gps] using hn⟩
      · by_cases hn : hasNmeaLine (captured ++ c) = true
        · exact ⟨1, by simp [sniff_for_gps, hc, hn]⟩
        · obtain ⟨n, h2⟩ := ih (captured ++ c)
          exact ⟨n + 1, by simp [sniff_for_gps, hc, hn, h2]⟩

theorem filterMap_stream_false (ls : List (List Nat)) :
    ls.filterMap (streamLineF false)
      = (ls.filter (fun l => !l.isEmpty)).map decodeAsciiReplace := by
  induction ls with
  | nil => rfl
  | cons l ls ih =>
      rcases eq_or_ne l [] with hl | hl
      · subst hl
        simpa [List.filterMap_cons, streamLineF] using ih
      · simp [List.filterMap_cons, List.filter_cons, streamLineF, hl,
          List.isEmpty_iff, ih]

theorem filterMap_stream_true (ls : List (List Nat)) :
    ls.filterMap (streamLineF true)
      = (ls.filterMap (streamLineF false)).filter
          (fun t => pyStartsWith t "$" || pyStartsWith t "<") := by
  induction ls with
  | nil => rfl
  | cons l ls ih =>
      rcases eq_or_ne l [] with hl | hl
      · subst hl
        simpa [List.filterMap_cons, streamLineF] using ih
      · by_cases hp : pyStartsWith (decodeAsciiReplace l) "$" = true
          ∨ pyStartsWith (decodeAsciiReplace l) "<" = true
        · simp [List.filterMap_cons, List.filter_cons, streamLineF, hl, hp, ih]
        · push_neg at hp
          simp [List.filterMap_cons, List.filter_cons, streamLineF, hl,
            hp.1, hp.2, ih]

/-! ## Claim theorems -/

/-- C1: during the probe of one candidate in `detect_gps`, the active
initialization sequence is written if and only if the passive sniff reported
no match, and then exactly once (the commands written are `[]` or exactly
one copy of `INIT_COMMANDS`); when the passive sniff matches, the probe
reports matched without any initialization command having been written.
The spec scenario — a device silent during the passive window that emits
`$GPRMC,…\r\n` only after initialization — reports matched with exactly one
initialization sequence sent. -/
theorem C1_probe_init_iff_passive_unmatched (p a : List (List Nat)) :
    ((probeCandidate p a).2.2 ≠ [] ↔ (sniff_for_gps p []).1 = false)
    ∧ ((probeCandidate p a).2.2 = [] ∨ (probeCandidate p a).2.2 = INIT_COMMANDS)
    ∧ ((sniff_for_gps p []).1 = true →
        (probeCandidate p a).1 = true ∧ (probeCandidate p a).2.2 = [])
    ∧ probeCandidate [] [asciiBytes "$GPRMC,1\r\n"]
        = (true, asciiBytes "$GPRMC,1\r\n", INIT_COMMANDS) := by
  refine ⟨?_, ?_, ?_, ?_⟩
  · cases hm : (sniff_for_gps p []).1 <;>
      simp [probeCandidate, hm, INIT_COMMANDS]
  · cases hm : (sniff_for_gps p []).1 <;> simp [probeCandidate, hm]
  · intro h
    simp [probeCandidate, h]
  · decide

theorem C1_probe_witness :
    (probeCandidate [[36, 71, 80]] []).1 = true
    ∧ (probeCandidate [[36, 71, 80]] []).2.2 = [] :=
  (C1_probe_init_iff_passive_unmatched [[36, 71, 80]] []).2.2.1 (by decide)

/-- C2: `detect_gps` tries candidates in a deterministic order — paths
sorted lexically within each glob pattern, the patterns in declared order,
and for each path the bauds in `BAUD_MAP` declaration order — returns the
first candidate that opens and probes matched (probing no candidate past
it), and returns `none` on exhaustion rather than failing. -/
theorem C2_detect_gps_first_match (env : DiscoveryEnv) :
    (detect_gps env).map Prod.fst = (candidateSeq env).find? (probeHit env)
    ∧ (detectLoop env 0 (candidateSeq env)).2.1
        = ((candidateSeq env).takeWhile fun c => !(probeHit env c)).filter
            (fun c => (openAttempt env c).1.isSome)
          ++ ((candidateSeq env).find? (probeHit env)).toList
    ∧ candidateSeq env
        = ((TTY_PATTERNS.map fun pat => sortedPaths (env.globPaths pat)).flatten.map
            fun p => BAUD_KEYS.map fun b => (p, b)).flatten
    ∧ (∀ pat : String, List.Sorted (· ≤ ·) (sortedPaths (env.globPaths pat))
        ∧ List.Perm (sortedPaths (env.globPaths pat)) (env.globPaths pat))
    ∧ BAUD_KEYS = [115200, 57600, 38400, 19200, 9600, 4800]
    ∧ TTY_PATTERNS = ["/dev/ttyUSB*", "/dev/ttyACM*"]
    ∧ (detect_gps env = none ↔
        ∀ c ∈ candidateSeq env, probeHit env c = false) := by
  obtain ⟨h1, h2⟩ := detectLoop_find env (candidateSeq env) 0
  have hiff : detect_gps env = none ↔
      (candidateSeq env).find? (probeHit env) = none := by
    rw [← h1, Option.map_eq_none']
    exact Iff.rfl
  refine ⟨h1, h2, rfl, ?_, rfl, rfl, ?_⟩
  · intro pat
    exact ⟨List.sorted_insertionSort _ _, List.perm_insertionSort _ _⟩
  · rw [hiff, List.find?_eq_none]
    simp

/-- C3 counterexample: the reply wait inside `send_command`
(usb_gps_monitor.py) does not stop when a `\r` appears in the accumulated
buffer — on the chunk stream `[\r], [A]` it keeps accumulating and returns
`\rA`, whereas a collector stopping on `\n` or `\r` returns `\r`. -/
theorem C3_counterexample_cr_only :
    monitorReplyLoop [[13], [65]] [] = [13, 65]
    ∧ collectUntilTerm [10, 13] [[13], [65]] [] = [13]
    ∧ monitorReplyLoop [[13], [65]] [] ≠ collectUntilTerm [10, 13] [[13], [65]] [] := by
  decide

/-- C3 (amended): `read_response` (gps_init.py) stops accumulating as soon
as `\n` or `\r` appears in the accumulated buffer and otherwise accumulates
until the deadline, returning whatever was captured; the reply wait inside
`send_command` (usb_gps_monitor.py) does the same but with `\n` as its only
terminator. -/
theorem C3_reply_collection_stop_condition (cs : List (List Nat)) :
    readResponseLoop cs [] = collectUntilTerm [10, 13] cs []
    ∧ monitorReplyLoop cs [] = collectUntilTerm [10] cs [] :=
  ⟨readResponseLoop_eq_collect cs [] (by simp) (by simp),
   monitorReplyLoop_eq_collect cs [] (by simp)⟩

/-- C4: for every input stream — the empty one included — `read_response`
returns within the overall deadline plus at most one poll slice: in the
timed model the loop terminates (yields `some`) with fuel `deadline + 1`
and its return time is at most `deadline + slice`. -/
theorem C4_read_response_bounded_return (deadline slice : Nat) (dur : Nat → Nat)
    (chunks : Nat → List Nat) (hlo : ∀ i, 1 ≤ dur i) (hhi : ∀ i, dur i ≤ slice) :
    ∃ r, readResponseTimed deadline dur chunks (deadline + 1) 0 0 [] = some r ∧
      r.1 ≤ deadline + slice :=
  readResponseTimed_bounded deadline slice dur chunks hlo hhi (deadline + 1) 0 0 []
    (by omega) (fun _ => by omega) (by omega)

theorem C4_bounded_return_witness :
    ∃ r, readResponseTimed 3 (fun _ => 1) (fun _ => []) (3 + 1) 0 0 [] = some r ∧
      r.1 ≤ 3 + 1 :=
  C4_read_response_bounded_return 3 1 (fun _ => 1) (fun _ => [])
    (fun _ => le_refl 1) (fun _ => le_refl 1)

/-- C5: `load_command_sequence` returns the concatenated command list with
exactly the adjacent duplicates removed — the adjacent destuttering of the
concatenation — hence no two consecutive elements are equal and relative
order is preserved (the result is a sublist, keeping non-adjacent
duplicates); the literal scenario `[A, A, B, A]` yields `[A, B, A]`. -/
theorem C5_load_command_sequence_adjacent_dedup
    (paths : List (Option String)) (extra : List String) :
    load_command_sequence paths extra
      = List.destutter (· ≠ ·) ((paths.map parse_command_file).flatten ++ extra)
    ∧ List.Chain' (· ≠ ·) (load_command_sequence paths extra)
    ∧ List.Sublist (load_command_sequence paths extra)
        ((paths.map parse_command_file).flatten ++ extra)
    ∧ load_command_sequence [] ["A", "A", "B", "A"] = ["A", "B", "A"] := by
  have h := dedupConsecutive_eq_destutter
    ((paths.map parse_command_file).flatten ++ extra)
  refine ⟨h, ?_, ?_, ?_⟩
  · rw [show load_command_sequence paths extra = _ from h]
    exact List.destutter_is_chain' _ _
  · rw [show load_command_sequence paths extra = _ from h]
    exact List.destutter_sublist _ _
  · decide

/-- C6: descriptors are closed exactly once on every modelled exit path:
`open_serial` (gps_init.py) closes the just-opened descriptor before
propagating a configuration failure and otherwise hands it up open;
`detect_gps` closes each unmatched candidate's descriptor (closed indices =
opened indices minus the matched one, each open and each close happening at
most once per descriptor), only the matched descriptor remaining open; and
the streaming loop performs exactly one close in its `finally` block. -/
theorem C6_fd_closed_exactly_once (env : DiscoveryEnv) (o c nmeaOnly : Bool)
    (chunks : List (List Nat)) :
    ((gpsInitOpenSerial o c).2.count .opened
        = (gpsInitOpenSerial o c).2.count .closed
          + (if (gpsInitOpenSerial o c).1.isSome then 1 else 0))
    ∧ (gpsInitOpenSerial o c).2.count .closed ≤ 1
    ∧ evIdxs .closed (detectLoop env 0 (candidateSeq env)).2.2
        = (evIdxs .opened (detectLoop env 0 (candidateSeq env)).2.2).filter
            (keptOpen (detect_gps env))
    ∧ (evIdxs .opened (detectLoop env 0 (candidateSeq env)).2.2).filter
          (fun n => ! keptOpen (detect_gps env) n)
        = matchedFd (detect_gps env)
    ∧ (evIdxs .opened (detectLoop env 0 (candidateSeq env)).2.2).Pairwise (· < ·)
    ∧ (evIdxs .closed (detectLoop env 0 (candidateSeq env)).2.2).Pairwise (· < ·)
    ∧ (stream_output nmeaOnly chunks).2 = [FdEvent.closed] := by
  obtain ⟨-, -, h3, h4, h5⟩ := detectLoop_events env (candidateSeq env) 0
  refine ⟨?_, ?_, h3, h4, h5, ?_, rfl⟩
  · cases o <;> cases c <;> decide
  · cases o <;> cases c <;> decide
  · rw [h3]
    exact List.Pairwise.sublist (List.filter_sublist _) h5

/-- C7: configuring a link fails with the unsupported-baud error if and only
if the requested rate is outside {4800, 9600, 19200, 38400, 57600, 115200}:
`configure_port` (gps_init.py) raises `ValueError` for exactly those rates,
and `open_serial` (usb_gps_monitor.py) returns `None` without attempting to
open the device for exactly those rates. -/
theorem C7_unsupported_baud_iff (baud : Nat) (termiosOk openOk configOk : Bool) :
    (configure_port baud termiosOk = .error .unsupportedBaud ↔ baud ∉ BAUD_KEYS)
    ∧ (monitor_open_serial baud openOk configOk = (none, []) ↔ baud ∉ BAUD_KEYS)
    ∧ (baud ∈ BAUD_KEYS ↔
        baud = 4800 ∨ baud = 9600 ∨ baud = 19200 ∨ baud = 38400 ∨
        baud = 57600 ∨ baud = 115200) := by
  refine ⟨?_, ?_, ?_⟩
  · rcases hl : BAUD_MAP.lookup baud with _ | v
    · simp [configure_port, hl, (baud_lookup_none_iff baud).mp hl]
    · have hmem : baud ∈ BAUD_KEYS := by
        by_contra hmem
        have hnone := (baud_lookup_none_iff baud).mpr hmem
        rw [hl] at hnone
        exact Option.noConfusion hnone
      cases termiosOk <;> simp [configure_port, hl, hmem]
  · rcases hl : BAUD_MAP.lookup baud with _ | v
    · simp [monitor_open_serial, hl, (baud_lookup_none_iff baud).mp hl]
    · have hmem : baud ∈ BAUD_KEYS := by
        by_contra hmem
        have hnone := (baud_lookup_none_iff baud).mpr hmem
        rw [hl] at hnone
        exact Option.noConfusion hnone
      cases openOk <;> cases configOk <;>
        simp [monitor_open_serial, hl, hmem]
  · simp only [BAUD_KEYS, BAUD_MAP, List.map_cons, List.map_nil, List.mem_cons,
      List.not_mem_nil, or_false]
    tauto

/-- C8 counterexample: `send_command` (usb_gps_monitor.py) encodes strictly
— on the command `"Á"` the encode raises (modelled `none`) instead of
dropping the non-ASCII character as `send_commands` (gps_init.py) does. -/
theorem C8_counterexample_nonascii :
    monitorPayload "Á" = none
    ∧ gpsInitPayload "Á" = [13, 10]
    ∧ monitorPayload "Á" ≠ some (gpsInitPayload "Á") := by
  decide

/-- C8 (amended): `send_commands` (gps_init.py) writes exactly the
ASCII-encodable characters of the command in order followed by CRLF,
non-ASCII characters dropped without raising; `send_command`
(usb_gps_monitor.py) writes the command bytes followed by CRLF only when
every character is ASCII, and raises (writing nothing) otherwise. -/
theorem C8_send_payload_encoding (cmd : String) :
    gpsInitPayload cmd = encodeAsciiIgnore cmd ++ [13, 10]
    ∧ monitorPayload cmd
        = (if cmd.data.all (fun ch => ch.toNat < 128)
           then some (cmd.data.map Char.toNat ++ [13, 10])
           else none) := by
  obtain ⟨l⟩ := cmd
  have hdata : (String.mk l ++ "\r\n").data = l ++ ['\r', '\n'] := rfl
  constructor
  · unfold gpsInitPayload encodeAsciiIgnore
    rw [hdata, List.filter_append, List.map_append]
    have h2 : (['\r', '\n'].filter (fun c => c.toNat < 128)).map Char.toNat
        = [13, 10] := by decide
    rw [h2]
  · unfold monitorPayload encodeAsciiStrict
    rw [hdata, List.all_append]
    have h3 : ['\r', '\n'].all (fun c => c.toNat < 128) = true := by decide
    rw [h3, Bool.and_true]
    have h4 : ['\r', '\n'].map Char.toNat = [13, 10] := by decide
    cases h : l.all (fun c => c.toNat < 128) <;>
      simp [h, List.map_append, h4]

/-- C9: each received chunk is split on line boundaries, every non-empty
line is decoded as ASCII with substitution and emitted in arrival order, and
with NMEA-only filtering exactly the lines whose text starts with `$` or `<`
are emitted; the bytes `$GPGGA,1\r\n$GPGSA,2\r\n` with filtering disabled
emit two lines, and the line `NOTICE: x` with filtering enabled emits none. -/
theorem C9_stream_lines (d : List Nat) (nmeaOnly : Bool) (chunks : List (List Nat)) :
    streamChunkLines false d
        = ((bytesSplitlines d).filter (fun l => !l.isEmpty)).map decodeAsciiReplace
    ∧ streamChunkLines true d
        = (streamChunkLines false d).filter
            (fun t => pyStartsWith t "$" || pyStartsWith t "<")
    ∧ (stream_output nmeaOnly chunks).1
        = (chunks.map (streamChunkLines nmeaOnly)).flatten
    ∧ streamChunkLines false (asciiBytes "$GPGGA,1\r\n$GPGSA,2\r\n")
        = ["$GPGGA,1", "$GPGSA,2"]
    ∧ streamChunkLines true (asciiBytes "NOTICE: x") = [] := by
  refine ⟨filterMap_stream_false _, filterMap_stream_true _, rfl, ?_, ?_⟩ <;>
    decide

/-- C10: `sniff_for_gps` declares a match as soon as any line of the
accumulated buffer — a trailing unterminated fragment included — starts with
a recognized raw byte prefix, and returns all bytes captured so far in both
the matched and unmatched case (everything received when unmatched, the
accumulation up to the matching chunk when matched). -/
theorem C10_sniff_line_prefix_match (cs : List (List Nat)) :
    ((sniff_for_gps cs []).1 = hasNmeaLine (sniff_for_gps cs []).2)
    ∧ ((sniff_for_gps cs []).1 = false → (sniff_for_gps cs []).2 = cs.flatten)
    ∧ (∃ n, (sniff_for_gps cs []).2 = (cs.take n).flatten)
    ∧ sniff_for_gps [asciiBytes "$GP"] [] = (true, asciiBytes "$GP")
    ∧ sniff_for_gps [[36, 71, 80, 71, 71, 65]] []
        = (true, [36, 71, 80, 71, 71, 65]) := by
  refine ⟨sniff_fst_eq_hasNmeaLine cs [] (by decide), ?_, ?_, ?_, ?_⟩
  · intro h
    simpa using sniff_false_flatten cs [] h
  · simpa using sniff_capture_take cs []
  · decide
  · decide

theorem C10_sniff_witness :
    (sniff_for_gps [[65]] []).2 = ([[65]] : List (List Nat)).flatten :=
  (C10_sniff_line_prefix_match [[65]]).2.1 (by decide)

end Novatel
